import Mathlib

/-!
Shallow embedding of `src/lib/traditional-analyzer.ts`: a local, deterministic
pattern-matching analysis engine.  JavaScript regular expressions are embedded
as an explicit abstract syntax (`Regex`) together with a backtracking matcher
whose result list is ordered by the ECMAScript matching priority (leftmost
match, left alternative first, greedy repetition longest-first); the engine's
repeated `regex.exec` loop is embedded as `execAll`.  Strings are handled as
`List Char`.  Machine details that do not affect the verified claims (UTF-16
code units vs code points) are abstracted to characters.
-/

namespace TraditionalAnalyzer

/-- Severity levels, `"error" | "warning" | "info"` in the source. -/
inductive Sev
  | error
  | warning
  | info
deriving DecidableEq

/-- One item of a regex character class: a single character or a range. -/
inductive ClassItem
  | ch (c : Char)
  | range (lo hi : Char)
deriving DecidableEq

/-- Abstract syntax of the regular expressions appearing in the two rule
catalogs.  `eol` is `$` under the `m` flag, `wordB` is `\b`, `lookNeg` is a
negative lookahead `(?! ...)`. -/
inductive Regex
  | eps
  | lit (c : Char)
  | cls (neg : Bool) (items : List ClassItem)
  | dot
  | cat (a b : Regex)
  | alt (a b : Regex)
  | star (r : Regex)
  | lookNeg (r : Regex)
  | eol
  | wordB
deriving DecidableEq

/-- Case folding used when the `i` flag is set. -/
def ciChar (ci : Bool) (c : Char) : Char :=
  if ci then c.toLower else c

/-- ECMAScript LineTerminator characters (what `.` does not match). -/
def isLineTerm (c : Char) : Bool :=
  c = '\n' || c = '\r' || c = ' ' || c = ' '

/-- The characters of the ECMAScript `\s` class (WhiteSpace and
LineTerminator); also the set removed by `String.prototype.trim`. -/
def jsWhitespaceChars : List Char :=
  [' ', '\t', '\n', '\r', '\x0b', '\x0c', ' ', ' ',
   ' ', ' ', ' ', ' ', ' ', ' ', ' ',
   ' ', ' ', ' ', ' ',
   ' ', ' ', ' ', ' ', '　', '﻿']

def isJsWs (c : Char) : Bool :=
  jsWhitespaceChars.contains c

/-- Class items for `\w`. -/
def wordItems : List ClassItem :=
  [ClassItem.range 'a' 'z', ClassItem.range 'A' 'Z',
   ClassItem.range '0' '9', ClassItem.ch '_']

/-- Does character `c` match one class item (under case-insensitivity `ci`)? -/
def charMatchItem (ci : Bool) (c : Char) : ClassItem → Bool
  | ClassItem.ch d => ciChar ci c = ciChar ci d
  | ClassItem.range lo hi => lo ≤ c && c ≤ hi

/-- Does character `c` match the class `[items]` (negated when `neg`)? -/
def charMatchCls (ci : Bool) (neg : Bool) (items : List ClassItem) (c : Char) : Bool :=
  neg != items.any (charMatchItem ci c)

def isWordChar (c : Char) : Bool :=
  charMatchCls false false wordItems c

/-- Is the character at `pos` (if any) a word character? -/
def isWordAt (s : List Char) (pos : Nat) : Bool :=
  match s.get? pos with
  | some c => isWordChar c
  | none => false

/-- The `\b` assertion: the word-character status changes at `pos`. -/
def atWordBoundary (s : List Char) (pos : Nat) : Bool :=
  (match pos with
   | 0 => false
   | q + 1 => isWordAt s q) != isWordAt s pos

/-- Greedy repetition (the ECMAScript RepeatMatcher with `min = 0`,
`max = ∞`): `body q` enumerates the end positions of one iteration of the
star's operand from `q`, in priority order.  An iteration that consumes
nothing is discarded (the RepeatMatcher progress rule), so each level of
recursion strictly advances the position; `fuel` is always instantiated to
`s.length + 1`, which therefore never runs out. -/
def starLoop (body : Nat → List Nat) : Nat → Nat → List Nat
  | 0, pos => [pos]
  | f + 1, pos =>
      (((body pos).filter (fun q => pos < q)).flatMap (starLoop body f)) ++ [pos]

/-- All end positions of matches of `r` starting at `pos` in `s`, in
ECMAScript priority order (the head is the end position the JavaScript
engine commits to): left alternative first, greedy repetition
longest-first. -/
def ends (ci : Bool) (s : List Char) (r : Regex) (pos : Nat) : List Nat :=
  match r with
  | Regex.eps => [pos]
  | Regex.lit c =>
      match s.get? pos with
      | some d => if ciChar ci d = ciChar ci c then [pos + 1] else []
      | none => []
  | Regex.cls neg items =>
      match s.get? pos with
      | some d => if charMatchCls ci neg items d then [pos + 1] else []
      | none => []
  | Regex.dot =>
      match s.get? pos with
      | some d => if isLineTerm d then [] else [pos + 1]
      | none => []
  | Regex.cat a b => (ends ci s a pos).flatMap (fun q => ends ci s b q)
  | Regex.alt a b => ends ci s a pos ++ ends ci s b pos
  | Regex.star r1 => starLoop (ends ci s r1) (s.length + 1) pos
  | Regex.lookNeg r1 => if ends ci s r1 pos = [] then [pos] else []
  | Regex.eol =>
      if pos = s.length then [pos]
      else match s.get? pos with
        | some d => if isLineTerm d then [pos] else []
        | none => []
  | Regex.wordB => if atWordBoundary s pos then [pos] else []

/-- Search forward for the first position at which `r` matches; `fuel` covers
the remaining positions. -/
def searchFrom (ci : Bool) (s : List Char) (r : Regex) : Nat → Nat → Option (Nat × Nat)
  | 0, _ => none
  | f + 1, start =>
      if start ≤ s.length then
        match (ends ci s r start).head? with
        | some e => some (start, e)
        | none => searchFrom ci s r f (start + 1)
      else none

/-- First position `≥ start` at which `r` matches, together with the committed
end position: the search that `regex.exec` performs from `lastIndex`. -/
def searchAt (ci : Bool) (s : List Char) (r : Regex) (start : Nat) :
    Option (Nat × Nat) :=
  searchFrom ci s r (s.length + 1 - start) start

/-- The `while ((match = regex.exec(text)) !== null)` loop: produce successive
non-overlapping matches as (start index, matched text).  One unit of fuel per
match; with `fuel = s.length + 1` the fuel is never exhausted for patterns
that cannot match the empty string (on a zero-width match JavaScript would
loop forever, which a total function cannot reproduce; no catalog pattern is
nullable, see `minLen`). -/
def execGo (ci : Bool) (s : List Char) (r : Regex) : Nat → Nat → List (Nat × List Char)
  | 0, _ => []
  | fuel + 1, lastIndex =>
      match searchAt ci s r lastIndex with
      | none => []
      | some (i, e) => (i, (s.drop i).take (e - i)) :: execGo ci s r fuel e

/-- All matches of `r` over `s`, in occurrence order. -/
def execAll (ci : Bool) (s : List Char) (r : Regex) : List (Nat × List Char) :=
  execGo ci s r (s.length + 1) 0

/-- Concatenation of a list of regexes. -/
def rseq (l : List Regex) : Regex :=
  l.foldr Regex.cat Regex.eps

/-- A literal string as a regex. -/
def rstr (t : String) : Regex :=
  rseq (t.data.map Regex.lit)

/-- `\s` -/
def rws : Regex :=
  Regex.cls false (jsWhitespaceChars.map ClassItem.ch)

/-- `\w` -/
def rword : Regex :=
  Regex.cls false wordItems

/-- `r+` (greedy) -/
def rplus (r : Regex) : Regex :=
  Regex.cat r (Regex.star r)

/-- `r?` (greedy) -/
def ropt (r : Regex) : Regex :=
  Regex.alt r Regex.eps

/-- `\s*` -/
def sws : Regex :=
  Regex.star rws

/-- Minimum number of characters any match of `r` consumes. -/
def minLen : Regex → Nat
  | Regex.eps => 0
  | Regex.lit _ => 1
  | Regex.cls _ _ => 1
  | Regex.dot => 1
  | Regex.cat a b => minLen a + minLen b
  | Regex.alt a b => Nat.min (minLen a) (minLen b)
  | Regex.star _ => 0
  | Regex.lookNeg _ => 0
  | Regex.eol => 0
  | Regex.wordB => 0

/-- A rule: `interface Pattern` in the source.  The `i` flag of the source
regex literal is embedded as the separate `ci` field (every pattern has the
`g` flag, embedded by `execAll`; the one `m` flag only affects `$`, which is
embedded as `Regex.eol`). -/
structure Pattern where
  regex : Regex
  ci : Bool
  type : Sev
  category : String
  message : String
  suggestion : Option String
  fixCode : Option String
deriving DecidableEq

/-- The code-oriented rule catalog `CODE_PATTERNS`, in source order. -/
def CODE_PATTERNS : List Pattern := [
  -- /console\.(log|debug|info|warn|error)\s*\(/g
  ⟨rseq [rstr "console.",
      Regex.alt (rstr "log") (Regex.alt (rstr "debug") (Regex.alt (rstr "info")
        (Regex.alt (rstr "warn") (rstr "error")))), sws, Regex.lit '('],
    false, Sev.warning, "Security",
    "Console statement found - should be removed in production",
    some "Remove console statements or use a logging library with environment checks", none⟩,
  -- /(password|secret|api[_-]?key|token)\s*[:=]\s*['"][^'"]+['"]/gi
  ⟨rseq [Regex.alt (rstr "password") (Regex.alt (rstr "secret")
        (Regex.alt (rseq [rstr "api", ropt (Regex.cls false [ClassItem.ch '_', ClassItem.ch '-']), rstr "key"])
          (rstr "token"))),
      sws, Regex.cls false [ClassItem.ch ':', ClassItem.ch '='], sws,
      Regex.cls false [ClassItem.ch '\x27', ClassItem.ch '"'],
      rplus (Regex.cls true [ClassItem.ch '\x27', ClassItem.ch '"']),
      Regex.cls false [ClassItem.ch '\x27', ClassItem.ch '"']],
    true, Sev.error, "Security",
    "Potential hardcoded secret detected",
    some "Use environment variables instead of hardcoding secrets", none⟩,
  -- /eval\s*\(/g
  ⟨rseq [rstr "eval", sws, Regex.lit '('],
    false, Sev.error, "Security",
    "eval() is dangerous and can lead to code injection",
    some "Avoid eval() - use safer alternatives like JSON.parse() for data", none⟩,
  -- /innerHTML\s*=/g
  ⟨rseq [rstr "innerHTML", sws, Regex.lit '='],
    false, Sev.warning, "Security",
    "innerHTML can lead to XSS vulnerabilities",
    some "Use textContent or sanitize HTML with DOMPurify", none⟩,
  -- /dangerouslySetInnerHTML/g
  ⟨rstr "dangerouslySetInnerHTML",
    false, Sev.warning, "Security",
    "dangerouslySetInnerHTML can lead to XSS attacks",
    some "Sanitize content with DOMPurify before rendering", none⟩,
  -- /catch\s*\([^)]*\)\s*\{\s*\}/g
  ⟨rseq [rstr "catch", sws, Regex.lit '(', Regex.star (Regex.cls true [ClassItem.ch ')']),
      Regex.lit ')', sws, Regex.lit '\x7b', sws, Regex.lit '\x7d'],
    false, Sev.error, "Error Handling",
    "Empty catch block - errors are silently ignored",
    some "Log errors or handle them appropriately",
    some "catch (error) \x7b\n  console.error(\x27Error:\x27, error);\n  // Handle error appropriately\n\x7d"⟩,
  -- /\.catch\s*\(\s*\(\s*\)\s*=>\s*\{\s*\}\s*\)/g
  ⟨rseq [Regex.lit '.', rstr "catch", sws, Regex.lit '(', sws, Regex.lit '(', sws,
      Regex.lit ')', sws, rstr "=>", sws, Regex.lit '\x7b', sws, Regex.lit '\x7d', sws, Regex.lit ')'],
    false, Sev.error, "Error Handling",
    "Empty .catch() handler - Promise errors are silently ignored",
    some "Handle Promise rejections properly", none⟩,
  -- /async\s+function[^{]+\{(?:(?!try\s*\{).)*\}$/gm
  ⟨rseq [rstr "async", rplus rws, rstr "function", rplus (Regex.cls true [ClassItem.ch '\x7b']),
      Regex.lit '\x7b',
      Regex.star (Regex.cat (Regex.lookNeg (rseq [rstr "try", sws, Regex.lit '\x7b'])) Regex.dot),
      Regex.lit '\x7d', Regex.eol],
    false, Sev.warning, "Error Handling",
    "Async function without try-catch block",
    some "Wrap async code in try-catch for proper error handling", none⟩,
  -- /var\s+\w+/g
  ⟨rseq [rstr "var", rplus rws, rplus rword],
    false, Sev.warning, "Code Quality",
    "Using \x27var\x27 instead of \x27let\x27 or \x27const\x27",
    some "Use \x27const\x27 for constants, \x27let\x27 for variables that change", none⟩,
  -- /==(?!=)/g
  ⟨rseq [rstr "==", Regex.lookNeg (Regex.lit '=')],
    false, Sev.warning, "Code Quality",
    "Using loose equality (==) instead of strict equality (===)",
    some "Use === for strict type comparison", none⟩,
  -- /!=(?!=)/g
  ⟨rseq [rstr "!=", Regex.lookNeg (Regex.lit '=')],
    false, Sev.warning, "Code Quality",
    "Using loose inequality (!=) instead of strict inequality (!==)",
    some "Use !== for strict type comparison", none⟩,
  -- /\/\/\s*TODO/gi
  ⟨rseq [rstr "//", sws, rstr "TODO"],
    true, Sev.info, "Code Quality",
    "TODO comment found - incomplete implementation",
    some "Complete the TODO or create a tracked issue", none⟩,
  -- /\/\/\s*FIXME/gi
  ⟨rseq [rstr "//", sws, rstr "FIXME"],
    true, Sev.warning, "Code Quality",
    "FIXME comment found - known issue needs attention",
    some "Fix the issue or create a tracked bug report", none⟩,
  -- /\/\/\s*HACK/gi
  ⟨rseq [rstr "//", sws, rstr "HACK"],
    true, Sev.warning, "Code Quality",
    "HACK comment found - workaround in place",
    some "Consider refactoring to a proper solution", none⟩,
  -- /debugger\s*;?/g
  ⟨rseq [rstr "debugger", sws, ropt (Regex.lit ';')],
    false, Sev.error, "Code Quality",
    "Debugger statement found - must be removed for production",
    some "Remove debugger statements before deploying", none⟩,
  -- /key\s*=\s*\{?\s*index\s*\}?/g
  ⟨rseq [rstr "key", sws, Regex.lit '=', sws, ropt (Regex.lit '\x7b'), sws,
      rstr "index", sws, ropt (Regex.lit '\x7d')],
    false, Sev.warning, "React",
    "Using array index as key - can cause rendering issues",
    some "Use unique identifiers instead of array indices as keys", none⟩,
  -- /useEffect\s*\(\s*async/g
  ⟨rseq [rstr "useEffect", sws, Regex.lit '(', sws, rstr "async"],
    false, Sev.error, "React",
    "useEffect callback should not be async directly",
    some "Define async function inside useEffect and call it",
    some "useEffect(() => \x7b\n  const fetchData = async () => \x7b\n    // async code here\n  \x7d;\n  fetchData();\n\x7d, []);"⟩,
  -- /useState\s*<[^>]+>\s*\(\s*\[\s*\]\s*\)/g
  ⟨rseq [rstr "useState", sws, Regex.lit '<', rplus (Regex.cls true [ClassItem.ch '>']),
      Regex.lit '>', sws, Regex.lit '(', sws, Regex.lit '[', sws, Regex.lit ']', sws, Regex.lit ')'],
    false, Sev.info, "React",
    "Consider using useMemo for expensive array initializations",
    some "If this array requires computation, use useMemo", none⟩,
  -- /:\s*any\b/g
  ⟨rseq [Regex.lit ':', sws, rstr "any", Regex.wordB],
    false, Sev.warning, "TypeScript",
    "Using \x27any\x27 type defeats TypeScript\x27s type safety",
    some "Define proper types or use \x27unknown\x27 for truly unknown types", none⟩,
  -- /@ts-ignore/g
  ⟨rstr "@ts-ignore",
    false, Sev.warning, "TypeScript",
    "@ts-ignore suppresses type checking",
    some "Fix the type error instead of ignoring it", none⟩,
  -- /as\s+any\b/g
  ⟨rseq [rstr "as", rplus rws, rstr "any", Regex.wordB],
    false, Sev.warning, "TypeScript",
    "Type assertion to \x27any\x27 bypasses type checking",
    some "Use proper type narrowing or define correct types", none⟩,
  -- /if\s*\([^)]*\)\s*;/g
  ⟨rseq [rstr "if", sws, Regex.lit '(', Regex.star (Regex.cls true [ClassItem.ch ')']),
      Regex.lit ')', sws, Regex.lit ';'],
    false, Sev.error, "Potential Bug",
    "Empty if statement - likely a typo",
    some "Remove the semicolon or add the intended code block", none⟩,
  -- /for\s*\([^)]*\)\s*;/g
  ⟨rseq [rstr "for", sws, Regex.lit '(', Regex.star (Regex.cls true [ClassItem.ch ')']),
      Regex.lit ')', sws, Regex.lit ';'],
    false, Sev.error, "Potential Bug",
    "Empty for loop - likely a typo",
    some "Remove the semicolon or add the intended code block", none⟩,
  -- /return\s*\n\s*\{/g
  ⟨rseq [rstr "return", sws, Regex.lit '\n', sws, Regex.lit '\x7b'],
    false, Sev.error, "Potential Bug",
    "Return statement with line break before object - returns undefined",
    some "Put the opening brace on the same line as return", none⟩,
  -- /=\s*=\s*=/g
  ⟨rseq [Regex.lit '=', sws, Regex.lit '=', sws, Regex.lit '='],
    false, Sev.error, "Potential Bug",
    "Invalid operator (three equals with spaces)",
    some "Use === without spaces for strict equality", none⟩,
  -- /\.map\([^)]+\)\.filter\([^)]+\)/g
  ⟨rseq [Regex.lit '.', rstr "map", Regex.lit '(', rplus (Regex.cls true [ClassItem.ch ')']),
      Regex.lit ')', Regex.lit '.', rstr "filter", Regex.lit '(',
      rplus (Regex.cls true [ClassItem.ch ')']), Regex.lit ')'],
    false, Sev.info, "Performance",
    "Chained .map().filter() - consider using .reduce() for efficiency",
    some "Use .reduce() to iterate only once", none⟩,
  -- /JSON\.parse\(JSON\.stringify\(/g
  ⟨rstr "JSON.parse(JSON.stringify(",
    false, Sev.warning, "Performance",
    "Deep clone via JSON - slow and loses functions/dates",
    some "Use structuredClone() or a proper deep clone library", none⟩]

/-- The terminal-log rule catalog `TERMINAL_PATTERNS`, in source order. -/
def TERMINAL_PATTERNS : List Pattern := [
  -- /Error:\s*.+/gi
  ⟨rseq [rstr "Error:", sws, rplus Regex.dot],
    true, Sev.error, "Runtime Error", "Error detected in terminal output", none, none⟩,
  -- /TypeError:\s*.+/gi
  ⟨rseq [rstr "TypeError:", sws, rplus Regex.dot],
    true, Sev.error, "Type Error",
    "Type error - likely accessing property of undefined/null", none, none⟩,
  -- /ReferenceError:\s*.+/gi
  ⟨rseq [rstr "ReferenceError:", sws, rplus Regex.dot],
    true, Sev.error, "Reference Error", "Reference error - undefined variable used", none, none⟩,
  -- /SyntaxError:\s*.+/gi
  ⟨rseq [rstr "SyntaxError:", sws, rplus Regex.dot],
    true, Sev.error, "Syntax Error", "Syntax error - malformed code", none, none⟩,
  -- /ENOENT/gi
  ⟨rstr "ENOENT", true, Sev.error, "File System", "File or directory not found", none, none⟩,
  -- /ECONNREFUSED/gi
  ⟨rstr "ECONNREFUSED", true, Sev.error, "Network",
    "Connection refused - service may be down", none, none⟩,
  -- /ETIMEDOUT/gi
  ⟨rstr "ETIMEDOUT", true, Sev.error, "Network",
    "Connection timeout - network or service issue", none, none⟩,
  -- /Cannot find module/gi
  ⟨rstr "Cannot find module", true, Sev.error, "Module",
    "Missing module - check package.json or imports", none, none⟩,
  -- /deprecated/gi
  ⟨rstr "deprecated", true, Sev.warning, "Deprecation", "Deprecated feature in use", none, none⟩,
  -- /warning/gi
  ⟨rstr "warning", true, Sev.warning, "Warning",
    "Warning detected in terminal output", none, none⟩,
  -- /out of memory|heap|memory leak/gi
  ⟨Regex.alt (rstr "out of memory") (Regex.alt (rstr "heap") (rstr "memory leak")),
    true, Sev.error, "Memory", "Potential memory issue detected", none, none⟩,
  -- /cors|cross-origin/gi
  ⟨Regex.alt (rstr "cors") (rstr "cross-origin"),
    true, Sev.error, "CORS", "CORS issue - cross-origin request blocked", none, none⟩,
  -- /401|unauthorized/gi
  ⟨Regex.alt (rstr "401") (rstr "unauthorized"),
    true, Sev.error, "Authentication",
    "Authentication error - invalid or missing credentials", none, none⟩,
  -- /403|forbidden/gi
  ⟨Regex.alt (rstr "403") (rstr "forbidden"),
    true, Sev.error, "Authorization",
    "Authorization error - insufficient permissions", none, none⟩,
  -- /404|not found/gi
  ⟨Regex.alt (rstr "404") (rstr "not found"),
    true, Sev.warning, "Not Found", "Resource not found", none, none⟩,
  -- /500|internal server error/gi
  ⟨Regex.alt (rstr "500") (rstr "internal server error"),
    true, Sev.error, "Server Error", "Internal server error", none, none⟩]

/-- `findLineNumber`: count the `\n` characters before the match index
(the `(beforeMatch.match(/\n/g) || []).length` of the source), plus one. -/
def findLineNumber (content : List Char) (matchIndex : Nat) : Nat :=
  ((content.take matchIndex).filter (fun c => c = '\n')).length + 1

/-- One element of the `issues` array of `TraditionalAnalysisResult`. -/
structure Issue where
  type : Sev
  category : String
  message : String
  line : Nat
  suggestion : Option String
  code : Option String
deriving DecidableEq

/-- `String.prototype.trim()`. -/
def jsTrim (s : List Char) : List Char :=
  ((s.dropWhile isJsWs).reverse.dropWhile isJsWs).reverse

/-- The issue pushed for one match of a code pattern. -/
def codeIssueOfMatch (p : Pattern) (src : List Char) (m : Nat × List Char) : Issue :=
  ⟨p.type, p.category, p.message, findLineNumber src m.1, p.suggestion, p.fixCode⟩

/-- The code-pattern scan: the first `if (codeSnippet.trim()) ... for ... while`
block of `analyzeCode`. -/
def codePhase (codeSnippet : List Char) : List Issue :=
  if jsTrim codeSnippet = [] then []
  else CODE_PATTERNS.flatMap
    (fun p => (execAll p.ci codeSnippet p.regex).map (codeIssueOfMatch p codeSnippet))

/-- Message of a log-derived issue:
`` `${pattern.message}: "${match[0].substring(0, 50)}${match[0].length > 50 ? '...' : ''}"` ``. -/
def logMessage (p : Pattern) (mtext : List Char) : String :=
  p.message ++ ": \"" ++ String.mk (mtext.take 50)
    ++ (if 50 < mtext.length then "..." else "") ++ "\""

/-- The issue pushed for one (non-duplicate) match of a terminal pattern. -/
def logIssueOfMatch (p : Pattern) (logs : List Char) (m : Nat × List Char) : Issue :=
  ⟨p.type, p.category, logMessage p m.2, findLineNumber logs m.1, p.suggestion, none⟩

/-- `issues.find(i => i.category === pattern.category && i.type === pattern.type)`
converted to its truthiness. -/
def hasDup (issues : List Issue) (p : Pattern) : Bool :=
  (issues.find? (fun i => i.category == p.category && i.type == p.type)).isSome

/-- Body of the `while` loop of the terminal-log scan: push unless duplicate. -/
def logStep (logs : List Char) (p : Pattern) (acc : List Issue) (m : Nat × List Char) :
    List Issue :=
  if hasDup acc p then acc else acc ++ [logIssueOfMatch p logs m]

/-- The terminal-log scan: the second `if (terminalLogs.trim()) ...` block of
`analyzeCode`, continuing from the accumulated `issues`. -/
def logPhase (terminalLogs : List Char) (issues : List Issue) : List Issue :=
  if jsTrim terminalLogs = [] then issues
  else TERMINAL_PATTERNS.foldl
    (fun acc p => (execAll p.ci terminalLogs p.regex).foldl (logStep terminalLogs p) acc) issues

/-- `severityOrder = { error: 0, warning: 1, info: 2 }`. -/
def sevRank : Sev → Nat
  | Sev.error => 0
  | Sev.warning => 1
  | Sev.info => 2

def issueLE (a b : Issue) : Prop :=
  sevRank a.type ≤ sevRank b.type

instance : DecidableRel issueLE :=
  fun _ _ => Nat.decLe _ _

instance : IsTotal Issue issueLE :=
  ⟨fun _ _ => Nat.le_total _ _⟩

instance : IsTrans Issue issueLE :=
  ⟨fun _ _ _ => Nat.le_trans⟩

/-- `issues.sort((a, b) => severityOrder[a.type] - severityOrder[b.type])`.
`Array.prototype.sort` is required to be stable (ES2019); it is embedded as a
stable insertion sort. -/
def sortIssues (l : List Issue) : List Issue :=
  List.insertionSort issueLE l

/-- The `stats` object. -/
structure Stats where
  errors : Nat
  warnings : Nat
  info : Nat
deriving DecidableEq

def statsOf (issues : List Issue) : Stats :=
  ⟨(issues.filter (fun i => i.type == Sev.error)).length,
   (issues.filter (fun i => i.type == Sev.warning)).length,
   (issues.filter (fun i => i.type == Sev.info)).length⟩

/-- The `summary` synthesis, mirroring the source's conditionals and its
mixed use of `> 1` and `!== 1` pluralization checks. -/
def summaryOf (issues : List Issue) (stats : Stats) : String :=
  if issues.length = 0 then "No issues detected. Code looks clean!"
  else if 0 < stats.errors then
    "Found " ++ toString stats.errors ++ " error"
      ++ (if 1 < stats.errors then "s" else "") ++ ", "
      ++ toString stats.warnings ++ " warning"
      ++ (if stats.warnings ≠ 1 then "s" else "") ++ ", and "
      ++ toString stats.info ++ " info message"
      ++ (if stats.info ≠ 1 then "s" else "") ++ ". Address errors first."
  else if 0 < stats.warnings then
    "Found " ++ toString stats.warnings ++ " warning"
      ++ (if 1 < stats.warnings then "s" else "") ++ " and "
      ++ toString stats.info ++ " info message"
      ++ (if stats.info ≠ 1 then "s" else "") ++ ". Consider addressing warnings for better code quality."
  else
    "Found " ++ toString stats.info ++ " info message"
      ++ (if 1 < stats.info then "s" else "") ++ ". Minor improvements suggested."

structure TraditionalAnalysisResult where
  issues : List Issue
  summary : String
  stats : Stats
deriving DecidableEq

/-- `analyzeCode(codeSnippet, terminalLogs)`. -/
def analyzeCode (codeSnippet terminalLogs : String) : TraditionalAnalysisResult :=
  let issues := sortIssues (logPhase terminalLogs.data (codePhase codeSnippet.data))
  let stats := statsOf issues
  ⟨issues, summaryOf issues stats, stats⟩

/-! ### Specification-side definitions

These follow the wording of the specification (not the source) and are used
to state refinement-style claims about the implementation above. -/

/-- The deduplication key of a finding: its `(category, severity)` pair. -/
def keyOf (i : Issue) : String × Sev :=
  (i.category, i.type)

/-- All log findings that the terminal scan would construct with no
deduplication at all, in rule-list order then match-occurrence order
(empty when the log text is blank, which skips the scan). -/
def rawLogIssues (logs : List Char) : List Issue :=
  if jsTrim logs = [] then []
  else TERMINAL_PATTERNS.flatMap
    (fun p => (execAll p.ci logs p.regex).map (logIssueOfMatch p logs))

/-- Spec-side deduplication: an explicit set of already-seen
`(category, severity)` keys; a finding is kept exactly when its key has not
been seen, and keeping it marks the key as seen.  Keeps the first finding of
each key. -/
def dedupFirstAux (seen : List (String × Sev)) : List Issue → List Issue
  | [] => []
  | i :: rest =>
      if keyOf i ∈ seen then dedupFirstAux seen rest
      else i :: dedupFirstAux (keyOf i :: seen) rest

def dedupFirst (l : List Issue) : List Issue :=
  dedupFirstAux [] l

/-- Spec-side pluralization: append "s" exactly when the count is not 1. -/
def specPlural (n : Nat) : String :=
  if n ≠ 1 then "s" else ""

/-- The spec's summary decision table, with `specPlural` applied
independently per count. -/
def specSummary (total errorCount warningCount infoCount : Nat) : String :=
  if total = 0 then "No issues detected. Code looks clean!"
  else if 0 < errorCount then
    "Found " ++ toString errorCount ++ " error" ++ specPlural errorCount ++ ", "
      ++ toString warningCount ++ " warning" ++ specPlural warningCount ++ ", and "
      ++ toString infoCount ++ " info message" ++ specPlural infoCount
      ++ ". Address errors first."
  else if 0 < warningCount then
    "Found " ++ toString warningCount ++ " warning" ++ specPlural warningCount ++ " and "
      ++ toString infoCount ++ " info message" ++ specPlural infoCount
      ++ ". Consider addressing warnings for better code quality."
  else
    "Found " ++ toString infoCount ++ " info message" ++ specPlural infoCount
      ++ ". Minor improvements suggested."

/-- The findings in detection order (step 3 of the spec's algorithm): code
findings, then log findings, before the severity sort. -/
def detectedIssues (code logs : String) : List Issue :=
  logPhase logs.data (codePhase code.data)

/-! ### The terminal-log scan as first-per-key deduplication -/

lemma hasDup_iff (acc : List Issue) (p : Pattern) :
    hasDup acc p = true ↔ (p.category, p.type) ∈ acc.map keyOf := by
  simp only [hasDup, List.find?_isSome, Bool.and_eq_true, beq_iff_eq,
    List.mem_map, keyOf, Prod.mk.injEq]

lemma dedupFirstAux_congr {s₁ s₂ : List (String × Sev)}
    (h : ∀ k, k ∈ s₁ ↔ k ∈ s₂) : ∀ l, dedupFirstAux s₁ l = dedupFirstAux s₂ l := by
  intro l
  induction l generalizing s₁ s₂ with
  | nil => rfl
  | cons i rest ih =>
    by_cases hk : keyOf i ∈ s₁
    · rw [dedupFirstAux, dedupFirstAux, if_pos hk, if_pos ((h _).1 hk)]
      exact ih h
    · rw [dedupFirstAux, dedupFirstAux, if_neg hk, if_neg (fun hc => hk ((h _).2 hc))]
      refine congrArg _ (ih ?_)
      intro k
      simp only [List.mem_cons]
      exact or_congr Iff.rfl (h k)

lemma foldl_logStep_eq (logs : List Char) (p : Pattern) :
    ∀ (ms : List (Nat × List Char)) (acc : List Issue),
      ms.foldl (logStep logs p) acc
        = acc ++ dedupFirstAux (acc.map keyOf) (ms.map (logIssueOfMatch p logs)) := by
  intro ms
  induction ms with
  | nil => intro acc; simp [dedupFirstAux]
  | cons m ms ih =>
    intro acc
    rw [List.foldl_cons, List.map_cons, logStep]
    by_cases h : hasDup acc p
    · rw [if_pos h, ih acc, dedupFirstAux,
        if_pos (show keyOf (logIssueOfMatch p logs m) ∈ acc.map keyOf by
          simpa [keyOf, logIssueOfMatch] using (hasDup_iff acc p).1 h)]
    · rw [if_neg h, ih (acc ++ [logIssueOfMatch p logs m]), dedupFirstAux,
        if_neg (show ¬ keyOf (logIssueOfMatch p logs m) ∈ acc.map keyOf by
          simpa [keyOf, logIssueOfMatch] using fun hm => h ((hasDup_iff acc p).2 hm))]
      rw [List.append_assoc, List.singleton_append]
      refine congrArg _ (congrArg _ ?_)
      refine dedupFirstAux_congr (fun k => ?_) _
      simp only [List.map_append, List.map_cons, List.map_nil, List.mem_append,
        List.mem_cons, List.mem_singleton, List.not_mem_nil, or_false]
      tauto

lemma dedupFirstAux_append (l₁ l₂ : List Issue) :
    ∀ s, dedupFirstAux s (l₁ ++ l₂)
      = dedupFirstAux s l₁
        ++ dedupFirstAux ((dedupFirstAux s l₁).map keyOf ++ s) l₂ := by
  induction l₁ with
  | nil => intro s; simp [dedupFirstAux]
  | cons i l₁ ih =>
    intro s
    by_cases hk : keyOf i ∈ s
    · rw [List.cons_append, dedupFirstAux, if_pos hk, dedupFirstAux, if_pos hk, ih s]
    · rw [List.cons_append, dedupFirstAux, if_neg hk, dedupFirstAux, if_neg hk,
        ih (keyOf i :: s), List.cons_append]
      refine congrArg _ (congrArg _ (dedupFirstAux_congr (fun k => ?_) _))
      simp only [List.map_cons, List.mem_append, List.mem_cons]
      tauto

lemma logPhase_core_eq (logs : List Char) :
    ∀ (pats : List Pattern) (acc : List Issue),
      pats.foldl (fun acc p => (execAll p.ci logs p.regex).foldl (logStep logs p) acc) acc
        = acc ++ dedupFirstAux (acc.map keyOf)
            (pats.flatMap (fun p => (execAll p.ci logs p.regex).map (logIssueOfMatch p logs))) := by
  intro pats
  induction pats with
  | nil => intro acc; simp [dedupFirstAux]
  | cons p pats ih =>
    intro acc
    rw [List.foldl_cons, foldl_logStep_eq, ih, List.flatMap_cons,
      dedupFirstAux_append, ← List.append_assoc]
    refine congrArg _ (dedupFirstAux_congr (fun k => ?_) _)
    simp only [List.map_append, List.mem_append]
    tauto

/-- The whole terminal-log scan, starting from the accumulated issues `init`,
appends exactly the first-per-key deduplication of the undeduplicated log
findings, seeded with the keys already in `init`. -/
lemma logPhase_eq (logs : List Char) (init : List Issue) :
    logPhase logs init = init ++ dedupFirstAux (init.map keyOf) (rawLogIssues logs) := by
  rw [logPhase, rawLogIssues]
  by_cases h : jsTrim logs = []
  · rw [if_pos h, if_pos h]
    simp [dedupFirstAux]
  · rw [if_neg h, if_neg h, logPhase_core_eq]

lemma mem_of_mem_dedupFirstAux {i : Issue} :
    ∀ {s l}, i ∈ dedupFirstAux s l → i ∈ l := by
  intro s l
  induction l generalizing s with
  | nil => intro h; simp [dedupFirstAux] at h
  | cons j l ih =>
    intro h
    rw [dedupFirstAux] at h
    by_cases hk : keyOf j ∈ s
    · rw [if_pos hk] at h
      exact List.mem_cons_of_mem _ (ih h)
    · rw [if_neg hk] at h
      rcases List.mem_cons.1 h with h | h
      · exact h ▸ List.mem_cons_self _ _
      · exact List.mem_cons_of_mem _ (ih h)

lemma keyOf_not_mem_of_mem_dedupFirstAux {i : Issue} :
    ∀ {s l}, i ∈ dedupFirstAux s l → keyOf i ∉ s := by
  intro s l
  induction l generalizing s with
  | nil => intro h; simp [dedupFirstAux] at h
  | cons j l ih =>
    intro h
    rw [dedupFirstAux] at h
    by_cases hk : keyOf j ∈ s
    · rw [if_pos hk] at h
      exact ih h
    · rw [if_neg hk] at h
      rcases List.mem_cons.1 h with h | h
      · exact h ▸ hk
      · exact fun hc => (ih h) (List.mem_cons_of_mem _ hc)

/-- Every finding kept by the deduplication is the first of its key in the
input list. -/
lemma dedupFirstAux_first {i : Issue} :
    ∀ {s l}, i ∈ dedupFirstAux s l →
      ∃ l₁ l₂, l = l₁ ++ i :: l₂ ∧ ∀ j ∈ l₁, keyOf j ≠ keyOf i := by
  intro s l
  induction l generalizing s with
  | nil => intro h; simp [dedupFirstAux] at h
  | cons j l ih =>
    intro h
    rw [dedupFirstAux] at h
    by_cases hk : keyOf j ∈ s
    · rw [if_pos hk] at h
      obtain ⟨l₁, l₂, hsplit, hne⟩ := ih h
      refine ⟨j :: l₁, l₂, by rw [hsplit, List.cons_append], ?_⟩
      intro x hx
      rcases List.mem_cons.1 hx with hx | hx
      · subst hx
        intro hc
        exact (keyOf_not_mem_of_mem_dedupFirstAux h) (hc ▸ hk)
      · exact hne x hx
    · rw [if_neg hk] at h
      rcases List.mem_cons.1 h with h | h
      · exact ⟨[], l, by rw [h, List.nil_append], by simp⟩
      · obtain ⟨l₁, l₂, hsplit, hne⟩ := ih h
        refine ⟨j :: l₁, l₂, by rw [hsplit, List.cons_append], ?_⟩
        intro x hx
        rcases List.mem_cons.1 hx with hx | hx
        · subst hx
          intro hc
          exact (keyOf_not_mem_of_mem_dedupFirstAux h) (hc ▸ List.mem_cons_self _ _)
        · exact hne x hx

/-- Seen keys that occur nowhere in the list are irrelevant. -/
lemma dedupFirstAux_drop_disjoint {l : List Issue} {s : List (String × Sev)}
    (hdis : ∀ i ∈ l, keyOf i ∉ s) :
    ∀ t, dedupFirstAux (t ++ s) l = dedupFirstAux t l := by
  induction l with
  | nil => intro t; rfl
  | cons i l ih =>
    intro t
    have hi : keyOf i ∉ s := hdis i (List.mem_cons_self _ _)
    have hrest : ∀ j ∈ l, keyOf j ∉ s := fun j hj => hdis j (List.mem_cons_of_mem _ hj)
    by_cases hk : keyOf i ∈ t
    · rw [dedupFirstAux, dedupFirstAux, if_pos (List.mem_append.2 (Or.inl hk)), if_pos hk]
      exact ih hrest t
    · rw [dedupFirstAux, dedupFirstAux,
        if_neg (fun hc => (List.mem_append.1 hc).elim hk hi), if_neg hk]
      exact congrArg _ (ih hrest (keyOf i :: t))

/-! ### The severity sort as a stable three-bucket partition -/

lemma type_of_mem_filter {t : Sev} {l : List Issue} {j : Issue}
    (h : j ∈ l.filter (fun i => i.type == t)) : j.type = t := by
  have hb := (List.mem_filter.1 h).2
  simpa using hb

lemma orderedInsert_append (i : Issue) (l₁ l₂ : List Issue)
    (h₁ : ∀ j ∈ l₁, ¬ issueLE i j) (h₂ : ∀ j ∈ l₂, issueLE i j) :
    List.orderedInsert issueLE i (l₁ ++ l₂) = l₁ ++ i :: l₂ := by
  induction l₁ with
  | nil =>
    rw [List.nil_append, List.nil_append]
    cases l₂ with
    | nil => rfl
    | cons x xs => rw [List.orderedInsert, if_pos (h₂ x (List.mem_cons_self _ _))]
  | cons j l₁ ih =>
    rw [List.cons_append, List.orderedInsert, if_neg (h₁ j (List.mem_cons_self _ _)),
      List.cons_append]
    exact congrArg _ (ih (fun x hx => h₁ x (List.mem_cons_of_mem _ hx)))

/-- A stable sort on a three-valued key is the concatenation of the three
severity buckets in the original order. -/
lemma sortIssues_eq_buckets (l : List Issue) :
    sortIssues l = l.filter (fun i => i.type == Sev.error)
      ++ l.filter (fun i => i.type == Sev.warning)
      ++ l.filter (fun i => i.type == Sev.info) := by
  induction l with
  | nil => rfl
  | cons i l ih =>
    show List.orderedInsert issueLE i (List.insertionSort issueLE l) = _
    rw [show List.insertionSort issueLE l = sortIssues l from rfl, ih]
    cases htype : i.type with
    | error =>
      have h := orderedInsert_append i []
        (l.filter (fun i => i.type == Sev.error) ++ l.filter (fun i => i.type == Sev.warning)
          ++ l.filter (fun i => i.type == Sev.info))
        (by simp) (fun j _ => by simp [issueLE, sevRank, htype])
      rw [List.nil_append] at h
      rw [h]
      simp [List.filter_cons, htype]
    | warning =>
      rw [List.append_assoc]
      have h := orderedInsert_append i (l.filter (fun i => i.type == Sev.error))
        (l.filter (fun i => i.type == Sev.warning) ++ l.filter (fun i => i.type == Sev.info))
        (fun j hj => by
          have := type_of_mem_filter hj
          simp [issueLE, sevRank, htype, this])
        (fun j hj => by
          rcases List.mem_append.1 hj with hj | hj <;>
            · have := type_of_mem_filter hj
              simp [issueLE, sevRank, htype, this])
      rw [h]
      simp [List.filter_cons, htype]
    | info =>
      have h := orderedInsert_append i
        (l.filter (fun i => i.type == Sev.error) ++ l.filter (fun i => i.type == Sev.warning))
        (l.filter (fun i => i.type == Sev.info))
        (fun j hj => by
          rcases List.mem_append.1 hj with hj | hj <;>
            · have := type_of_mem_filter hj
              simp [issueLE, sevRank, htype, this])
        (fun j hj => by
          have := type_of_mem_filter hj
          simp [issueLE, sevRank, htype, this])
      rw [h]
      simp [List.filter_cons, htype]

/-- Each issue has exactly one of the three severities, so the three severity
counts always add up to the number of issues. -/
lemma length_eq_counts (l : List Issue) :
    (l.filter (fun i => i.type == Sev.error)).length
      + (l.filter (fun i => i.type == Sev.warning)).length
      + (l.filter (fun i => i.type == Sev.info)).length = l.length := by
  induction l with
  | nil => rfl
  | cons i l ih =>
    cases htype : i.type <;> simp [List.filter_cons, htype] <;> omega

/-! ### Where findings come from -/

lemma mem_codePhase {code : List Char} {i : Issue} (h : i ∈ codePhase code) :
    ∃ p, p ∈ CODE_PATTERNS ∧ ∃ m, m ∈ execAll p.ci code p.regex
      ∧ i = codeIssueOfMatch p code m := by
  rw [codePhase] at h
  by_cases ht : jsTrim code = []
  · rw [if_pos ht] at h
    exact absurd h (List.not_mem_nil i)
  · rw [if_neg ht] at h
    obtain ⟨p, hp, hmem⟩ := List.mem_flatMap.1 h
    obtain ⟨m, hm, heq⟩ := List.mem_map.1 hmem
    exact ⟨p, hp, m, hm, heq.symm⟩

lemma mem_rawLogIssues {logs : List Char} {i : Issue} (h : i ∈ rawLogIssues logs) :
    ∃ p, p ∈ TERMINAL_PATTERNS ∧ ∃ m, m ∈ execAll p.ci logs p.regex
      ∧ i = logIssueOfMatch p logs m := by
  rw [rawLogIssues] at h
  by_cases ht : jsTrim logs = []
  · rw [if_pos ht] at h
    exact absurd h (List.not_mem_nil i)
  · rw [if_neg ht] at h
    obtain ⟨p, hp, hmem⟩ := List.mem_flatMap.1 h
    obtain ⟨m, hm, heq⟩ := List.mem_map.1 hmem
    exact ⟨p, hp, m, hm, heq.symm⟩

/-- No category string is shared between the code catalog and the terminal
catalog, so the two rule families can never produce findings with equal
deduplication keys. -/
lemma catalog_categories_disjoint :
    ∀ p ∈ CODE_PATTERNS, ∀ q ∈ TERMINAL_PATTERNS, p.category ≠ q.category := by
  decide

lemma rawLog_keys_not_in_codePhase (code logs : List Char) :
    ∀ i ∈ rawLogIssues logs, keyOf i ∉ (codePhase code).map keyOf := by
  intro i hi hmem
  obtain ⟨p, hp, m, hm, rfl⟩ := mem_rawLogIssues hi
  obtain ⟨j, hj, hkey⟩ := List.mem_map.1 hmem
  obtain ⟨q, hq, m2, hm2, rfl⟩ := mem_codePhase hj
  have hcat : q.category = p.category := by
    have := congrArg Prod.fst hkey
    simpa [keyOf, codeIssueOfMatch, logIssueOfMatch] using this
  exact catalog_categories_disjoint q hq p hp hcat

/-- Every finding of the final report originates from a concrete match of a
catalog rule against the corresponding input. -/
lemma mem_analyze_issues {code logs : String} {i : Issue}
    (h : i ∈ (analyzeCode code logs).issues) :
    (∃ p, p ∈ CODE_PATTERNS ∧ ∃ m, m ∈ execAll p.ci code.data p.regex
      ∧ i = codeIssueOfMatch p code.data m) ∨
    (∃ p, p ∈ TERMINAL_PATTERNS ∧ ∃ m, m ∈ execAll p.ci logs.data p.regex
      ∧ i = logIssueOfMatch p logs.data m) := by
  have h' : i ∈ sortIssues (logPhase logs.data (codePhase code.data)) := h
  have hm : i ∈ logPhase logs.data (codePhase code.data) :=
    (List.mem_insertionSort issueLE).1 h'
  rw [logPhase_eq] at hm
  rcases List.mem_append.1 hm with hc | hl
  · exact Or.inl (mem_codePhase hc)
  · exact Or.inr (mem_rawLogIssues (mem_of_mem_dedupFirstAux hl))

/-! ### Blank inputs -/

lemma jsTrim_eq_nil_iff (s : List Char) : jsTrim s = [] ↔ ∀ c ∈ s, isJsWs c := by
  constructor
  · intro h c hc
    have h1 : (List.dropWhile isJsWs s).reverse.dropWhile isJsWs = [] := by
      have := congrArg List.reverse h
      simpa [jsTrim] using this
    have h2 : ∀ x ∈ (List.dropWhile isJsWs s).reverse, isJsWs x :=
      List.dropWhile_eq_nil_iff.1 h1
    have h3 : ∀ x ∈ List.dropWhile isJsWs s, isJsWs x :=
      fun x hx => h2 x (List.mem_reverse.2 hx)
    have hsplit : List.takeWhile isJsWs s ++ List.dropWhile isJsWs s = s :=
      List.takeWhile_append_dropWhile isJsWs s
    rw [← hsplit] at hc
    rcases List.mem_append.1 hc with hc | hc
    · exact List.mem_takeWhile_imp hc
    · exact h3 c hc
  · intro h
    have h1 : List.dropWhile isJsWs s = [] := List.dropWhile_eq_nil_iff.2 h
    simp [jsTrim, h1]

/-! ### Progress and boundedness of the matcher -/

lemma starLoop_lower {body : Nat → List Nat} :
    ∀ fuel pos e, e ∈ starLoop body fuel pos → pos ≤ e := by
  intro fuel
  induction fuel with
  | zero =>
    intro pos e h
    rw [starLoop] at h
    simp only [List.mem_singleton] at h
    omega
  | succ f ih =>
    intro pos e h
    rw [starLoop] at h
    rcases List.mem_append.1 h with h | h
    · obtain ⟨q, hq, he⟩ := List.mem_flatMap.1 h
      have hq' := List.mem_filter.1 hq
      have hlt : pos < q := by simpa using hq'.2
      have := ih q e he
      omega
    · simp only [List.mem_singleton] at h
      omega

/-- Any match end position lies at least `minLen r` characters past the start
position. -/
lemma ends_lower (ci : Bool) (s : List Char) :
    ∀ r pos e, e ∈ ends ci s r pos → pos + minLen r ≤ e := by
  intro r
  induction r with
  | eps =>
    intro pos e h
    rw [ends] at h
    simp only [List.mem_singleton] at h
    simp [minLen, h]
  | lit c =>
    intro pos e h
    rw [ends] at h
    split at h
    · split at h <;> simp only [List.mem_singleton, List.not_mem_nil] at h
      simp [minLen, h]
    · exact absurd h (List.not_mem_nil e)
  | cls neg items =>
    intro pos e h
    rw [ends] at h
    split at h
    · split at h <;> simp only [List.mem_singleton, List.not_mem_nil] at h
      simp [minLen, h]
    · exact absurd h (List.not_mem_nil e)
  | dot =>
    intro pos e h
    rw [ends] at h
    split at h
    · split at h <;> simp only [List.mem_singleton, List.not_mem_nil] at h
      simp [minLen, h]
    · exact absurd h (List.not_mem_nil e)
  | cat a b iha ihb =>
    intro pos e h
    rw [ends] at h
    obtain ⟨q, hq, he⟩ := List.mem_flatMap.1 h
    have h1 := iha pos q hq
    have h2 := ihb q e he
    rw [minLen]
    omega
  | alt a b iha ihb =>
    intro pos e h
    rw [ends] at h
    rw [minLen]
    have hmin1 := Nat.min_le_left (minLen a) (minLen b)
    have hmin2 := Nat.min_le_right (minLen a) (minLen b)
    rcases List.mem_append.1 h with h | h
    · exact le_trans (Nat.add_le_add_left hmin1 pos) (iha pos e h)
    · exact le_trans (Nat.add_le_add_left hmin2 pos) (ihb pos e h)
  | star r1 ih =>
    intro pos e h
    rw [ends] at h
    have := starLoop_lower (s.length + 1) pos e h
    rw [minLen]
    omega
  | lookNeg r1 _ =>
    intro pos e h
    rw [ends] at h
    split at h <;> simp only [List.mem_singleton, List.not_mem_nil] at h
    simp [minLen, h]
  | eol =>
    intro pos e h
    rw [ends] at h
    split at h
    · simp only [List.mem_singleton] at h
      simp [minLen, h]
    · split at h
      · split at h <;> simp only [List.mem_singleton, List.not_mem_nil] at h
        simp [minLen, h]
      · exact absurd h (List.not_mem_nil e)
  | wordB =>
    intro pos e h
    rw [ends] at h
    split at h <;> simp only [List.mem_singleton, List.not_mem_nil] at h
    simp [minLen, h]

lemma mem_of_head?_eq {α : Type} {l : List α} {a : α} (h : l.head? = some a) : a ∈ l := by
  cases l with
  | nil => simp at h
  | cons x xs =>
    simp only [List.head?_cons, Option.some.injEq] at h
    exact h ▸ List.mem_cons_self _ _

lemma searchFrom_some {ci : Bool} {s : List Char} {r : Regex} :
    ∀ {fuel start i e}, searchFrom ci s r fuel start = some (i, e) →
      start ≤ i ∧ i ≤ s.length ∧ e ∈ ends ci s r i := by
  intro fuel
  induction fuel with
  | zero => intro start i e h; simp [searchFrom] at h
  | succ f ih =>
    intro start i e h
    rw [searchFrom] at h
    split at h
    · rename_i hle
      split at h
      · rename_i e' hh
        injection h with hpair
        injection hpair with h1 h2
        subst h1
        subst h2
        exact ⟨Nat.le_refl _, hle, mem_of_head?_eq hh⟩
      · have := ih h
        exact ⟨by omega, this.2.1, this.2.2⟩
    · exact absurd h (by simp)

lemma searchFrom_none {ci : Bool} {s : List Char} {r : Regex} :
    ∀ {fuel start}, searchFrom ci s r fuel start = none →
      ∀ q, start ≤ q → q < start + fuel → q ≤ s.length → ends ci s r q = [] := by
  intro fuel
  induction fuel with
  | zero => intro start _ q h1 h2 _; omega
  | succ f ih =>
    intro start h q h1 h2 h3
    rw [searchFrom] at h
    split at h
    · split at h
      · exact absurd h (by simp)
      · rename_i hh
        rcases Nat.eq_or_lt_of_le h1 with heq | hlt
        · exact heq ▸ List.head?_eq_none_iff.1 hh
        · exact ih h q hlt (by omega) h3
    · rename_i hgt
      omega

lemma searchAt_some {ci : Bool} {s : List Char} {r : Regex} {start i e : Nat}
    (h : searchAt ci s r start = some (i, e)) :
    start ≤ i ∧ i ≤ s.length ∧ e ∈ ends ci s r i :=
  searchFrom_some h

lemma mem_execGo_lower {ci : Bool} {s : List Char} {r : Regex} :
    ∀ {fuel li m}, m ∈ execGo ci s r fuel li → li ≤ m.1 := by
  intro fuel
  induction fuel with
  | zero => intro li m h; simp [execGo] at h
  | succ f ih =>
    intro li m h
    rw [execGo] at h
    split at h
    · exact absurd h (List.not_mem_nil m)
    · rename_i i e hs
      rcases List.mem_cons.1 h with h | h
      · subst h
        exact (searchAt_some hs).1
      · have h1 := (searchAt_some hs).1
        have h2 := ends_lower ci s r i e (searchAt_some hs).2.2
        have h3 := ih h
        omega

lemma execGo_length {ci : Bool} {s : List Char} {r : Regex} :
    ∀ fuel li, (execGo ci s r fuel li).length ≤ fuel := by
  intro fuel
  induction fuel with
  | zero => intro li; simp [execGo]
  | succ f ih =>
    intro li
    rw [execGo]
    split
    · simp
    · rename_i i e _
      simpa using ih e

/-- Successive matches of a pattern that consumes at least one character
start at strictly increasing positions. -/
lemma execGo_chain {ci : Bool} {s : List Char} {r : Regex} (h1 : 1 ≤ minLen r) :
    ∀ fuel li, List.Chain' (· < ·) ((execGo ci s r fuel li).map Prod.fst) := by
  intro fuel
  induction fuel with
  | zero => intro li; simp [execGo]
  | succ f ih =>
    intro li
    rw [execGo]
    split
    · simp
    · rename_i i e hs
      simp only [List.map_cons]
      rw [List.chain'_cons']
      refine ⟨?_, ih e⟩
      intro b hb
      rw [List.head?_map] at hb
      simp only [Option.mem_def, Option.map_eq_some'] at hb
      obtain ⟨m, hm, hfst⟩ := hb
      have hmem : m ∈ execGo ci s r f e := mem_of_head?_eq hm
      have he := ends_lower ci s r i e (searchAt_some hs).2.2
      have hle := mem_execGo_lower hmem
      omega

/-! ### Constructing a concrete match of the `var` rule -/

lemma self_mem_starLoop (body : Nat → List Nat) :
    ∀ fuel pos, pos ∈ starLoop body fuel pos := by
  intro fuel pos
  cases fuel with
  | zero => rw [starLoop]; exact List.mem_singleton.2 rfl
  | succ f => rw [starLoop]; exact List.mem_append_right _ (List.mem_singleton.2 rfl)

lemma mem_ends_lit {s : List Char} {p : Nat} {c : Char} (h : s.get? p = some c) :
    (p + 1) ∈ ends false s (Regex.lit c) p := by
  rw [ends, h]
  simp [ciChar]

lemma mem_ends_cls {s : List Char} {p : Nat} {c : Char} {neg : Bool} {items : List ClassItem}
    (h : s.get? p = some c) (hm : charMatchCls false neg items c = true) :
    (p + 1) ∈ ends false s (Regex.cls neg items) p := by
  rw [ends, h]
  simp [hm]

lemma mem_ends_cat {ci : Bool} {s : List Char} {a b : Regex} {p q e : Nat}
    (ha : q ∈ ends ci s a p) (hb : e ∈ ends ci s b q) :
    e ∈ ends ci s (Regex.cat a b) p := by
  rw [ends]
  exact List.mem_flatMap.2 ⟨q, ha, hb⟩

lemma mem_ends_eps {ci : Bool} {s : List Char} {p : Nat} : p ∈ ends ci s Regex.eps p := by
  rw [ends]
  exact List.mem_singleton.2 rfl

lemma mem_ends_star_self {ci : Bool} {s : List Char} {r : Regex} {p : Nat} :
    p ∈ ends ci s (Regex.star r) p := by
  rw [ends]
  exact self_mem_starLoop _ _ _

/-- The Code Quality rule for `var` declarations (`/var\s+\w+/g`), the ninth
entry of `CODE_PATTERNS`. -/
def varPattern : Pattern :=
  ⟨rseq [rstr "var", rplus rws, rplus rword],
    false, Sev.warning, "Code Quality",
    "Using \x27var\x27 instead of \x27let\x27 or \x27const\x27",
    some "Use \x27const\x27 for constants, \x27let\x27 for variables that change", none⟩

lemma varPattern_mem : varPattern ∈ CODE_PATTERNS := by
  decide

lemma get?_append_offset (u w : List Char) : ∀ k, (u ++ w).get? (u.length + k) = w.get? k := by
  induction u with
  | nil => intro k; simp
  | cons c u ih =>
    intro k
    rw [List.cons_append, List.length_cons,
      show u.length + 1 + k = (u.length + k) + 1 by omega, List.get?_cons_succ]
    exact ih k

lemma get?_append_inside (w v : List Char) : ∀ k, k < w.length → (w ++ v).get? k = w.get? k := by
  induction w with
  | nil => intro k h; simp at h
  | cons c w ih =>
    intro k h
    cases k with
    | zero => rfl
    | succ k =>
      rw [List.cons_append, List.get?_cons_succ, List.get?_cons_succ]
      exact ih k (by simpa using h)

/-- Wherever the text contains `var` followed by a space and a word
character, the `var` rule matches. -/
lemma var_regex_match {s : List Char} {p : Nat}
    (h0 : s.get? p = some 'v') (h1 : s.get? (p + 1) = some 'a')
    (h2 : s.get? (p + 2) = some 'r') (h3 : s.get? (p + 3) = some ' ')
    (h4 : s.get? (p + 4) = some 'x') :
    (p + 5) ∈ ends false s varPattern.regex p := by
  have hv := mem_ends_lit h0
  have ha := mem_ends_lit h1
  have hr := mem_ends_lit h2
  have hstr : (p + 3) ∈ ends false s (rstr "var") p :=
    mem_ends_cat hv (mem_ends_cat ha (mem_ends_cat hr mem_ends_eps))
  have hws : (p + 4) ∈ ends false s rws (p + 3) := mem_ends_cls h3 (by decide)
  have hplusws : (p + 4) ∈ ends false s (rplus rws) (p + 3) :=
    mem_ends_cat hws mem_ends_star_self
  have hx : (p + 5) ∈ ends false s rword (p + 4) := mem_ends_cls h4 (by decide)
  have hplusw : (p + 5) ∈ ends false s (rplus rword) (p + 4) :=
    mem_ends_cat hx mem_ends_star_self
  exact mem_ends_cat hstr (mem_ends_cat hplusws (mem_ends_cat hplusw mem_ends_eps))

/-- A regex that matches somewhere in the text produces at least one match in
the `exec` scan. -/
lemma execAll_ne_nil {ci : Bool} {s : List Char} {r : Regex} {p e : Nat}
    (hp : p ≤ s.length) (hmem : e ∈ ends ci s r p) :
    execAll ci s r ≠ [] := by
  rw [execAll, execGo]
  cases hs : searchAt ci s r 0 with
  | none =>
    have := searchFrom_none hs p (Nat.zero_le p) (by omega) hp
    exact absurd (this ▸ hmem) (List.not_mem_nil e)
  | some ie =>
    cases ie with
    | mk i e2 => simp

/-! ### The claims -/

/-- C1: For every pair of input strings, during the log scan a match emits no
new Finding if a Finding with the same (category, severity) pair already
exists in the accumulated result set (including findings from earlier log
rules in the same call); when several matches share a (category, severity)
pair, the one Finding emitted is the first in detection order, so it embeds
the first matched substring; and this deduplication is log-only: the code
findings are passed through unchanged and (because the two catalogs share no
category) never suppress a log finding, and log findings never suppress code
findings.  Formally: the scan equals the code findings followed by the
first-per-key deduplication of the undeduplicated log-finding list, and every
kept log finding is the first of its key. -/
theorem log_dedup_is_log_only_and_keeps_first_match (code logs : String) :
    detectedIssues code logs
        = codePhase code.data ++ dedupFirst (rawLogIssues logs.data) ∧
    (analyzeCode code logs).issues
        = sortIssues (codePhase code.data ++ dedupFirst (rawLogIssues logs.data)) ∧
    ∀ i ∈ dedupFirst (rawLogIssues logs.data),
      ∃ l₁ l₂, rawLogIssues logs.data = l₁ ++ i :: l₂ ∧ ∀ j ∈ l₁, keyOf j ≠ keyOf i := by
  have hmain : detectedIssues code logs
      = codePhase code.data ++ dedupFirst (rawLogIssues logs.data) := by
    rw [detectedIssues, logPhase_eq, dedupFirst]
    refine congrArg _ ?_
    exact dedupFirstAux_drop_disjoint (rawLog_keys_not_in_codePhase code.data logs.data) []
  refine ⟨hmain, ?_, fun i hi => dedupFirstAux_first hi⟩
  show sortIssues (detectedIssues code logs) = _
  rw [hmain]

/-- Witness for C1 at a concrete input: in logs containing `Error: a` and
`Error: b`, the deduplicated log findings keep exactly the finding built from
the first match. -/
theorem log_dedup_is_log_only_and_keeps_first_match_witness :
    ∃ l₁ l₂, rawLogIssues (("Error: a\nError: b" : String).data)
        = l₁ ++ (⟨Sev.error, "Runtime Error",
            "Error detected in terminal output: \"Error: a\"", 1, none, none⟩ : Issue) :: l₂ ∧
      ∀ j ∈ l₁, keyOf j ≠ keyOf (⟨Sev.error, "Runtime Error",
            "Error detected in terminal output: \"Error: a\"", 1, none, none⟩ : Issue) :=
  (log_dedup_is_log_only_and_keeps_first_match "" "Error: a\nError: b").2.2 _ (by decide)

/-- C2: For every pair of input strings, the returned findings sequence is
sorted by severity rank (error before warning before info, i.e. pairwise
nondecreasing rank), and the sort is stable: it equals the severity buckets
of the detection-order sequence (code findings before log findings, rule
order, then occurrence order) concatenated in rank order, which preserves
the relative order of equal-severity findings. -/
theorem findings_sorted_by_severity_stable (code logs : String) :
    (analyzeCode code logs).issues.Pairwise issueLE ∧
    (analyzeCode code logs).issues
      = (detectedIssues code logs).filter (fun i => i.type == Sev.error)
        ++ (detectedIssues code logs).filter (fun i => i.type == Sev.warning)
        ++ (detectedIssues code logs).filter (fun i => i.type == Sev.info) := by
  constructor
  · show (sortIssues (detectedIssues code logs)).Pairwise issueLE
    exact List.sorted_insertionSort issueLE (detectedIssues code logs)
  · show sortIssues (detectedIssues code logs) = _
    exact sortIssues_eq_buckets _

/-- On a positive count, the source's `> 1` pluralization check coincides
with the spec's `≠ 1`. -/
lemma plural_gt_eq_specPlural {n : Nat} (hn : 0 < n) :
    (if 1 < n then "s" else "") = specPlural n := by
  rw [specPlural]
  by_cases h : 1 < n
  · rw [if_pos h, if_pos (by omega)]
  · rw [if_neg h, if_neg (by omega)]

lemma summaryOf_eq_specSummary (l : List Issue) :
    summaryOf l (statsOf l)
      = specSummary l.length (statsOf l).errors (statsOf l).warnings (statsOf l).info := by
  have hsum : (statsOf l).errors + (statsOf l).warnings + (statsOf l).info = l.length :=
    length_eq_counts l
  rw [summaryOf, specSummary]
  by_cases h0 : l.length = 0
  · rw [if_pos h0, if_pos h0]
  · rw [if_neg h0, if_neg h0]
    by_cases h1 : 0 < (statsOf l).errors
    · rw [if_pos h1, if_pos h1, plural_gt_eq_specPlural h1]
      try simp only [specPlural]
    · rw [if_neg h1, if_neg h1]
      by_cases h2 : 0 < (statsOf l).warnings
      · rw [if_pos h2, if_pos h2, plural_gt_eq_specPlural h2]
        try simp only [specPlural]
      · rw [if_neg h2, if_neg h2]
        have h3 : 0 < (statsOf l).info := by omega
        rw [plural_gt_eq_specPlural h3]
        try simp only [specPlural]

/-- C3: For every pair of input strings, the summary string is exactly the
sentence given by the spec's decision table over the final counts, with each
count word pluralized with a trailing "s" exactly when that count is not 1,
independently per count.  (The source checks `> 1` for the first count of
each sentence, but that count is positive in its branch, so `> 1` and `≠ 1`
agree.) -/
theorem summary_follows_spec_decision_table (code logs : String) :
    (analyzeCode code logs).summary
      = specSummary (analyzeCode code logs).issues.length
          (analyzeCode code logs).stats.errors
          (analyzeCode code logs).stats.warnings
          (analyzeCode code logs).stats.info :=
  summaryOf_eq_specSummary (sortIssues (logPhase logs.data (codePhase code.data)))

/-- C4: For every pair of input strings, each stats field equals the number
of findings of the corresponding severity in the returned findings sequence,
and the three counts add up to the length of the findings sequence. -/
theorem stats_count_findings (code logs : String) :
    (analyzeCode code logs).stats.errors
        = ((analyzeCode code logs).issues.filter (fun i => i.type == Sev.error)).length ∧
    (analyzeCode code logs).stats.warnings
        = ((analyzeCode code logs).issues.filter (fun i => i.type == Sev.warning)).length ∧
    (analyzeCode code logs).stats.info
        = ((analyzeCode code logs).issues.filter (fun i => i.type == Sev.info)).length ∧
    (analyzeCode code logs).stats.errors + (analyzeCode code logs).stats.warnings
        + (analyzeCode code logs).stats.info = (analyzeCode code logs).issues.length :=
  ⟨rfl, rfl, rfl, length_eq_counts (sortIssues (logPhase logs.data (codePhase code.data)))⟩

/-- C5: Every finding of the report is either a code finding carrying its
rule's message verbatim, or a log finding whose message is the rule's message
followed by `: "`, then the matched text — truncated to its first 50
characters plus an ellipsis when the match exceeds 50 characters, embedded in
full with no ellipsis otherwise — then `"`. -/
theorem log_message_embeds_truncated_match (code logs : String) :
    ∀ i ∈ (analyzeCode code logs).issues,
      (∃ p, p ∈ CODE_PATTERNS ∧ i.message = p.message) ∨
      (∃ p, p ∈ TERMINAL_PATTERNS ∧ ∃ m, m ∈ execAll p.ci logs.data p.regex ∧
        i.message = p.message ++ ": \"" ++
          (if 50 < m.2.length then String.mk (m.2.take 50) ++ "..." else String.mk m.2)
          ++ "\"") := by
  intro i hi
  rcases mem_analyze_issues hi with ⟨p, hp, m, hm, rfl⟩ | ⟨p, hp, m, hm, rfl⟩
  · exact Or.inl ⟨p, hp, rfl⟩
  · refine Or.inr ⟨p, hp, m, hm, ?_⟩
    show logMessage p m.2 = _
    rw [logMessage]
    by_cases h50 : 50 < m.2.length
    · rw [if_pos h50, if_pos h50]
      simp [String.append_assoc]
    · rw [if_neg h50, if_neg h50, String.append_empty,
        List.take_of_length_le (Nat.le_of_not_lt h50)]

/-- Witness for C5 at a concrete input: the one finding for `Error: foo`. -/
theorem log_message_embeds_truncated_match_witness :
    (∃ p, p ∈ CODE_PATTERNS ∧
      (⟨Sev.error, "Runtime Error",
        "Error detected in terminal output: \"Error: foo\"", 1, none, none⟩ : Issue).message
        = p.message) ∨
    (∃ p, p ∈ TERMINAL_PATTERNS ∧ ∃ m, m ∈ execAll p.ci (("Error: foo" : String).data) p.regex ∧
      (⟨Sev.error, "Runtime Error",
        "Error detected in terminal output: \"Error: foo\"", 1, none, none⟩ : Issue).message
        = p.message ++ ": \"" ++
          (if 50 < m.2.length then String.mk (m.2.take 50) ++ "..." else String.mk m.2)
          ++ "\"") :=
  log_message_embeds_truncated_match "" "Error: foo" _ (by decide)

/-- C6: Every finding's reported line number equals the count of newline
characters in its source text strictly before the match's start index, plus
one; in particular, for code input `"a\nb\nvar x = 1;"` the `var` finding
reports line 3. -/
theorem finding_line_numbers :
    (∀ (code logs : String), ∀ i ∈ (analyzeCode code logs).issues,
      (∃ p, p ∈ CODE_PATTERNS ∧ ∃ m, m ∈ execAll p.ci code.data p.regex ∧
        i.line = ((code.data.take m.1).filter (fun c => c = '\n')).length + 1) ∨
      (∃ p, p ∈ TERMINAL_PATTERNS ∧ ∃ m, m ∈ execAll p.ci logs.data p.regex ∧
        i.line = ((logs.data.take m.1).filter (fun c => c = '\n')).length + 1)) ∧
    (∃ i ∈ (analyzeCode "a\nb\nvar x = 1;" "").issues,
      i.category = "Code Quality" ∧ i.line = 3) := by
  constructor
  · intro code logs i hi
    rcases mem_analyze_issues hi with ⟨p, hp, m, hm, rfl⟩ | ⟨p, hp, m, hm, rfl⟩
    · exact Or.inl ⟨p, hp, m, hm, rfl⟩
    · exact Or.inr ⟨p, hp, m, hm, rfl⟩
  · decide

/-- Witness for C6 at a concrete input. -/
theorem finding_line_numbers_witness :
    (∃ p, p ∈ CODE_PATTERNS ∧
      ∃ m, m ∈ execAll p.ci (("a\nb\nvar x = 1;" : String).data) p.regex ∧
        (⟨Sev.warning, "Code Quality",
          "Using \x27var\x27 instead of \x27let\x27 or \x27const\x27", 3,
          some "Use \x27const\x27 for constants, \x27let\x27 for variables that change",
          none⟩ : Issue).line
          = (((("a\nb\nvar x = 1;" : String).data).take m.1).filter
              (fun c => c = '\n')).length + 1) ∨
    (∃ p, p ∈ TERMINAL_PATTERNS ∧
      ∃ m, m ∈ execAll p.ci (("" : String).data) p.regex ∧
        (⟨Sev.warning, "Code Quality",
          "Using \x27var\x27 instead of \x27let\x27 or \x27const\x27", 3,
          some "Use \x27const\x27 for constants, \x27let\x27 for variables that change",
          none⟩ : Issue).line
          = (((("" : String).data).take m.1).filter (fun c => c = '\n')).length + 1) :=
  finding_line_numbers.1 "a\nb\nvar x = 1;" "" _ (by decide)

/-- C7: `analyzeCode` accepts any two strings; a whitespace-only (or empty)
input contributes nothing — the report is the same as with that input empty —
and `analyzeCode "" ""` returns no findings, all-zero stats, and the clean
summary. -/
theorem blank_inputs_skip_scan :
    (∀ code logs : String, (∀ c ∈ code.data, isJsWs c) →
      analyzeCode code logs = analyzeCode "" logs) ∧
    (∀ code logs : String, (∀ c ∈ logs.data, isJsWs c) →
      analyzeCode code logs = analyzeCode code "") ∧
    analyzeCode "" "" = ⟨[], "No issues detected. Code looks clean!", ⟨0, 0, 0⟩⟩ := by
  refine ⟨?_, ?_, by decide⟩
  · intro code logs h
    have h1 : codePhase code.data = [] := by
      rw [codePhase, if_pos ((jsTrim_eq_nil_iff code.data).2 h)]
    have h2 : codePhase ("" : String).data = [] := rfl
    simp only [analyzeCode, h1, h2]
  · intro code logs h
    have h1 : logPhase logs.data (codePhase code.data) = codePhase code.data := by
      rw [logPhase, if_pos ((jsTrim_eq_nil_iff logs.data).2 h)]
    have h2 : logPhase (("" : String)).data (codePhase code.data) = codePhase code.data := rfl
    simp only [analyzeCode, h1, h2]

/-- Witness for C7 at a concrete input. -/
theorem blank_inputs_skip_scan_witness :
    analyzeCode " \t " "Error: x" = analyzeCode "" "Error: x" :=
  blank_inputs_skip_scan.1 " \t " "Error: x" (by decide)

/-- C8, counterexample: the claim "exactly one Code Quality warning Finding
for every code string containing `var x = 1;`" fails — code findings are
never deduplicated, so `var x = 1; var y = 2;` (which contains `var x = 1;`)
yields two Code Quality warnings, not one. -/
theorem var_exactly_one_finding_false :
    (∃ u v : List Char,
      ("var x = 1; var y = 2;" : String).data
        = u ++ ("var x = 1;" : String).data ++ v) ∧
    ((analyzeCode "var x = 1; var y = 2;" "").issues.filter
        (fun i => i.category == "Code Quality" && i.type == Sev.warning)).length ≠ 1 := by
  constructor
  · exact ⟨[], (" var y = 2;" : String).data, by decide⟩
  · decide

/-- C8, amended: for every code string containing `var x = 1;` (with any
terminal-log input), the result contains at least one Finding with category
"Code Quality" and severity warning whose message references `var`. -/
theorem var_at_least_one_finding (code logs : String)
    (hinf : ∃ u v : List Char, code.data = u ++ ("var x = 1;" : String).data ++ v) :
    ∃ i ∈ (analyzeCode code logs).issues,
      i.category = "Code Quality" ∧ i.type = Sev.warning ∧
      ∃ u2 v2 : List Char, i.message.data = u2 ++ ("var" : String).data ++ v2 := by
  obtain ⟨u, v, hcode⟩ := hinf
  have hget : ∀ k, k < 10 →
      code.data.get? (u.length + k) = (("var x = 1;" : String).data).get? k := by
    intro k hk
    rw [hcode, List.append_assoc, get?_append_offset, get?_append_inside]
    simpa using hk
  have h0 : code.data.get? u.length = some 'v' := by
    have h := hget 0 (by omega)
    rw [show ((("var x = 1;" : String).data).get? 0) = some 'v' from rfl] at h
    simpa using h
  have h1 : code.data.get? (u.length + 1) = some 'a' := by
    have h := hget 1 (by omega)
    rw [show ((("var x = 1;" : String).data).get? 1) = some 'a' from rfl] at h
    exact h
  have h2 : code.data.get? (u.length + 2) = some 'r' := by
    have h := hget 2 (by omega)
    rw [show ((("var x = 1;" : String).data).get? 2) = some 'r' from rfl] at h
    exact h
  have h3 : code.data.get? (u.length + 3) = some ' ' := by
    have h := hget 3 (by omega)
    rw [show ((("var x = 1;" : String).data).get? 3) = some ' ' from rfl] at h
    exact h
  have h4 : code.data.get? (u.length + 4) = some 'x' := by
    have h := hget 4 (by omega)
    rw [show ((("var x = 1;" : String).data).get? 4) = some 'x' from rfl] at h
    exact h
  have hmatch := var_regex_match h0 h1 h2 h3 h4
  have hplen : u.length ≤ code.data.length := by
    rw [hcode]
    simp [List.length_append]
  have hne : execAll false code.data varPattern.regex ≠ [] := execAll_ne_nil hplen hmatch
  obtain ⟨m, hm⟩ : ∃ m, m ∈ execAll false code.data varPattern.regex := by
    cases hx : execAll false code.data varPattern.regex with
    | nil => exact absurd hx hne
    | cons a t => exact ⟨a, hx ▸ List.mem_cons_self a t⟩
  have hjs : jsTrim code.data ≠ [] := by
    intro hc
    have hall := (jsTrim_eq_nil_iff code.data).1 hc
    have hv : 'v' ∈ code.data := by
      rw [hcode]
      exact List.mem_append.2 (Or.inl (List.mem_append.2 (Or.inr (by decide))))
    exact absurd (hall 'v' hv) (by decide)
  have hcp : codeIssueOfMatch varPattern code.data m ∈ codePhase code.data := by
    rw [codePhase, if_neg hjs]
    exact List.mem_flatMap.2 ⟨varPattern, varPattern_mem, List.mem_map.2 ⟨m, hm, rfl⟩⟩
  have hdet : codeIssueOfMatch varPattern code.data m
      ∈ logPhase logs.data (codePhase code.data) := by
    rw [logPhase_eq]
    exact List.mem_append.2 (Or.inl hcp)
  have hfin : codeIssueOfMatch varPattern code.data m ∈ (analyzeCode code logs).issues := by
    show _ ∈ sortIssues (logPhase logs.data (codePhase code.data))
    exact (List.mem_insertionSort issueLE).2 hdet
  exact ⟨codeIssueOfMatch varPattern code.data m, hfin, rfl, rfl,
    ("Using \x27" : String).data,
    ("\x27 instead of \x27let\x27 or \x27const\x27" : String).data,
    (by decide :
      ("Using \x27var\x27 instead of \x27let\x27 or \x27const\x27" : String).data
        = ("Using \x27" : String).data ++ ("var" : String).data
          ++ ("\x27 instead of \x27let\x27 or \x27const\x27" : String).data)⟩

/-- Witness for the amended C8 at a concrete input. -/
theorem var_at_least_one_finding_witness :
    ∃ i ∈ (analyzeCode "var x = 1;" "").issues,
      i.category = "Code Quality" ∧ i.type = Sev.warning ∧
      ∃ u2 v2 : List Char, i.message.data = u2 ++ ("var" : String).data ++ v2 :=
  var_at_least_one_finding "var x = 1;" "" ⟨[], [], by decide⟩

/-- C9: `analyzeCode` is a total Lean function; the repeated-match scans make
progress because no pattern in either catalog can match the empty string
(every pattern consumes at least one character), so successive
non-overlapping matches start at strictly increasing positions, and the
number of matches of any rule is bounded by the input length plus one. -/
theorem scan_terminates_bounded :
    (∀ p, p ∈ CODE_PATTERNS ∨ p ∈ TERMINAL_PATTERNS → 1 ≤ minLen p.regex) ∧
    (∀ (s : List Char) (p : Pattern), p ∈ CODE_PATTERNS ∨ p ∈ TERMINAL_PATTERNS →
      List.Chain' (fun a b => a < b) ((execAll p.ci s p.regex).map Prod.fst)) ∧
    (∀ (s : List Char) (p : Pattern), (execAll p.ci s p.regex).length ≤ s.length + 1) := by
  have hmin : ∀ p, p ∈ CODE_PATTERNS ∨ p ∈ TERMINAL_PATTERNS → 1 ≤ minLen p.regex := by
    intro p hp
    rcases hp with hp | hp
    · exact (show ∀ q ∈ CODE_PATTERNS, 1 ≤ minLen q.regex by decide) p hp
    · exact (show ∀ q ∈ TERMINAL_PATTERNS, 1 ≤ minLen q.regex by decide) p hp
  refine ⟨hmin, ?_, ?_⟩
  · intro s p hp
    exact execGo_chain (hmin p hp) _ _
  · intro s p
    exact execGo_length _ _

/-- Witness for C9 at a concrete input. -/
theorem scan_terminates_bounded_witness :
    1 ≤ minLen varPattern.regex ∧
    List.Chain' (fun a b => a < b)
      ((execAll varPattern.ci (("var a; var b;" : String).data) varPattern.regex).map
        Prod.fst) :=
  ⟨scan_terminates_bounded.1 varPattern (Or.inl (by decide)),
   scan_terminates_bounded.2.1 (("var a; var b;" : String).data) varPattern
     (Or.inl (by decide))⟩

/-- C10: Every finding of the report is either a code finding (carrying its
rule's suggestion and fixCode verbatim) or a log finding, and every log
finding has no suggestion and no fixCode: the log emission never copies
`fixCode`, and no rule of the terminal catalog defines a suggestion. -/
theorem log_findings_have_no_suggestion_or_fix (code logs : String) :
    ∀ i ∈ (analyzeCode code logs).issues,
      (∃ p, p ∈ CODE_PATTERNS ∧ i.suggestion = p.suggestion ∧ i.code = p.fixCode) ∨
      ((∃ p, p ∈ TERMINAL_PATTERNS ∧ ∃ m, m ∈ execAll p.ci logs.data p.regex ∧
          i = logIssueOfMatch p logs.data m) ∧ i.suggestion = none ∧ i.code = none) := by
  intro i hi
  rcases mem_analyze_issues hi with ⟨p, hp, m, hm, rfl⟩ | ⟨p, hp, m, hm, rfl⟩
  · exact Or.inl ⟨p, hp, rfl, rfl⟩
  · refine Or.inr ⟨⟨p, hp, m, hm, rfl⟩, ?_, rfl⟩
    show p.suggestion = none
    exact (show ∀ q ∈ TERMINAL_PATTERNS, q.suggestion = none by decide) p hp

/-- Witness for C10 at a concrete input. -/
theorem log_findings_have_no_suggestion_or_fix_witness :
    (∃ p, p ∈ CODE_PATTERNS ∧
      (⟨Sev.error, "Runtime Error",
        "Error detected in terminal output: \"Error: foo\"", 1, none, none⟩ : Issue).suggestion
          = p.suggestion ∧
      (⟨Sev.error, "Runtime Error",
        "Error detected in terminal output: \"Error: foo\"", 1, none, none⟩ : Issue).code
          = p.fixCode) ∨
    ((∃ p, p ∈ TERMINAL_PATTERNS ∧ ∃ m, m ∈ execAll p.ci (("Error: foo" : String).data) p.regex ∧
        (⟨Sev.error, "Runtime Error",
          "Error detected in terminal output: \"Error: foo\"", 1, none, none⟩ : Issue)
          = logIssueOfMatch p (("Error: foo" : String).data) m) ∧
      (⟨Sev.error, "Runtime Error",
        "Error detected in terminal output: \"Error: foo\"", 1, none, none⟩ : Issue).suggestion
        = none ∧
      (⟨Sev.error, "Runtime Error",
        "Error detected in terminal output: \"Error: foo\"", 1, none, none⟩ : Issue).code
        = none) :=
  log_findings_have_no_suggestion_or_fix "" "Error: foo" _ (by decide)


end TraditionalAnalyzer
